import Mathlib

/-!
Verification of the air-cargo planning problem definition
(`my_air_cargo_problems.py`): state encoding, action grounding,
applicability, transition, goal test and the ignore-preconditions
heuristic, together with the scenario constructors.

Propositions (the Python `expr` objects such as `At(C1, SFO)`) are modelled
structurally: a relation name applied to an ordered list of string
arguments, with structural (decidable) equality, exactly as `expr` equality
behaves on these ground relational atoms.

Encoded states (the Python `'TF...'` strings) are modelled as `List Bool`.

`encode_state` / `decode_state` / `FluentState` come from the repository's
`lp_utils` module, whose source is not part of the verified tree; they are
modelled from the specification's State Codec section (§4.2).
-/

namespace AirCargo

/-- A ground relational proposition `relation(arg1, ..., argN)`.
Mirrors the structural equality of the Python `expr` objects. -/
structure Proposition where
  rel : String
  args : List String
deriving DecidableEq

/-- `bin_rel(relation, obj1, obj2)` builds `relation(obj1, obj2)`. -/
def bin_rel (relation obj1 obj2 : String) : Proposition :=
  ⟨relation, [obj1, obj2]⟩

/-- `ternary_rel(relation, obj1, obj2, obj3)` builds `relation(obj1, obj2, obj3)`. -/
def ternary_rel (relation obj1 obj2 obj3 : String) : Proposition :=
  ⟨relation, [obj1, obj2, obj3]⟩

/-- `aimacode.planning.Action`: a name, positive and negative precondition
lists, and add / delete effect lists. -/
structure Action where
  name : Proposition
  precond_pos : List Proposition
  precond_neg : List Proposition
  effect_add : List Proposition
  effect_rem : List Proposition
deriving DecidableEq

/-- Modelled from the spec: `lp_utils.FluentState`, a pair of lists of
propositions asserted true (`pos`) and false (`neg`) (§3 "Fluent State"). -/
structure FluentState where
  pos : List Proposition
  neg : List Proposition
deriving DecidableEq

/-- Modelled from the spec: `lp_utils.encode_state` (§4.2): for each index
`i` in the state map, bit `i` is true iff `state_map[i] ∈ fs.pos`
(closed-world default false otherwise).  The `ConfigurationError` the spec
mentions for an empty state map is not modelled: no claim exercises an
empty state map, and the encoding below is total. -/
def encode_state (fs : FluentState) (state_map : List Proposition) : List Bool :=
  state_map.map (fun p => decide (p ∈ fs.pos))

/-- Modelled from the spec: `lp_utils.decode_state` (§4.2): index by index,
a true bit sends `state_map[i]` to `pos`, a false bit sends it to `neg`. -/
def decode_state (state : List Bool) (state_map : List Proposition) : FluentState :=
  { pos := ((state.zip state_map).filter (fun q => q.1)).map (fun q => q.2),
    neg := ((state.zip state_map).filter (fun q => !q.1)).map (fun q => q.2) }

/-- The ground `Load(c, p, a)` action built inside `load_actions`. -/
def loadAction (c p a : String) : Action :=
  { name := ternary_rel "Load" c p a,
    precond_pos := [bin_rel "At" c a, bin_rel "At" p a],
    precond_neg := [],
    effect_add := [bin_rel "In" c p],
    effect_rem := [bin_rel "At" c a] }

/-- The ground `Unload(c, p, a)` action built inside `unload_actions`. -/
def unloadAction (c p a : String) : Action :=
  { name := ternary_rel "Unload" c p a,
    precond_pos := [bin_rel "In" c p, bin_rel "At" p a],
    precond_neg := [],
    effect_add := [bin_rel "At" c a],
    effect_rem := [bin_rel "In" c p] }

/-- The ground `Fly(p, fr, to)` action built inside `fly_actions`. -/
def flyAction (p fr toA : String) : Action :=
  { name := ternary_rel "Fly" p fr toA,
    precond_pos := [bin_rel "At" p fr],
    precond_neg := [],
    effect_add := [bin_rel "At" p toA],
    effect_rem := [bin_rel "At" p fr] }

/-- `load_actions` of `AirCargoProblem.get_actions`: loops over airports,
then cargos, then planes. -/
def load_actions (cargos planes airports : List String) : List Action :=
  airports.flatMap fun a => cargos.flatMap fun c => planes.map fun p => loadAction c p a

/-- `unload_actions` of `AirCargoProblem.get_actions`: same loop order. -/
def unload_actions (cargos planes airports : List String) : List Action :=
  airports.flatMap fun a => cargos.flatMap fun c => planes.map fun p => unloadAction c p a

/-- `fly_actions` of `AirCargoProblem.get_actions`: loops over origin and
destination airports, skipping equal pairs, then planes. -/
def fly_actions (planes airports : List String) : List Action :=
  airports.flatMap fun fr => airports.flatMap fun toA =>
    if fr ≠ toA then planes.map fun p => flyAction p fr toA else []

/-- `AirCargoProblem.get_actions`: all load actions, then all unload
actions, then all fly actions. -/
def get_actions (cargos planes airports : List String) : List Action :=
  load_actions cargos planes airports ++ unload_actions cargos planes airports ++
    fly_actions planes airports

/-- An `AirCargoProblem`: the constructor arguments.  The state map, the
encoded initial state and the cached ground action list are derived from
them exactly as `AirCargoProblem.__init__` derives them. -/
structure AirCargoProblem where
  cargos : List String
  planes : List String
  airports : List String
  initial : FluentState
  goal : List Proposition
deriving DecidableEq

/-- `self.state_map = initial.pos + initial.neg`. -/
def AirCargoProblem.state_map (prob : AirCargoProblem) : List Proposition :=
  prob.initial.pos ++ prob.initial.neg

/-- `self.initial_state_TF = encode_state(initial, self.state_map)`. -/
def AirCargoProblem.initial_state_TF (prob : AirCargoProblem) : List Bool :=
  encode_state prob.initial prob.state_map

/-- `self.actions_list = self.get_actions()` (grounded once, cached). -/
def AirCargoProblem.actions_list (prob : AirCargoProblem) : List Action :=
  get_actions prob.cargos prob.planes prob.airports

/-- `AirCargoProblem.actions`: keep the grounded actions whose positive
preconditions are all in the decoded positive set and whose negative
preconditions are all outside it, in `actions_list` order. -/
def AirCargoProblem.actions (prob : AirCargoProblem) (state : List Bool) : List Action :=
  let current_state := (decode_state state prob.state_map).pos
  prob.actions_list.filter fun action =>
    action.precond_pos.all (fun p => decide (p ∈ current_state)) &&
    action.precond_neg.all (fun p => decide (p ∉ current_state))

/-- The growing-list append loop of `AirCargoProblem.result`:
`for fluent in xs: if fluent not in acc: acc.append(fluent)`. -/
def appendNew (base xs : List Proposition) : List Proposition :=
  xs.foldl (fun acc fluent => if fluent ∈ acc then acc else acc ++ [fluent]) base

/-- The `new_state` fluent built by `AirCargoProblem.result` before
re-encoding: positives of the old state not deleted, then added effects
not already present; negatives of the old state not added, then deleted
effects not already present. -/
def result_fluent (state : List Bool) (state_map : List Proposition) (action : Action) :
    FluentState :=
  let old_state := decode_state state state_map
  { pos := appendNew (old_state.pos.filter fun fluent => decide (fluent ∉ action.effect_rem))
      action.effect_add,
    neg := appendNew (old_state.neg.filter fun fluent => decide (fluent ∉ action.effect_add))
      action.effect_rem }

/-- `AirCargoProblem.result`: build the new fluent state and re-encode it
against the problem's state map. -/
def AirCargoProblem.result (prob : AirCargoProblem) (state : List Bool) (action : Action) :
    List Bool :=
  encode_state (result_fluent state prob.state_map action) prob.state_map

/-- `AirCargoProblem.goal_test`: `set(self.goal).issubset(set(current_state.pos))`. -/
def AirCargoProblem.goal_test (prob : AirCargoProblem) (state : List Bool) : Bool :=
  let current_state := decode_state state prob.state_map
  prob.goal.all fun g => decide (g ∈ current_state.pos)

/-- `AirCargoProblem.h_ignore_preconditions`: `len(self.goal)` minus the
cardinality of `set(current_state.pos).intersection(self.goal)` (a set, so
duplicates contribute once to the intersection).  The Python value is an
unbounded integer, so the model returns `Int` and non-negativity is a real
statement. -/
def AirCargoProblem.h_ignore_preconditions (prob : AirCargoProblem) (state : List Bool) : Int :=
  let current_state := decode_state state prob.state_map
  let satisfied_goals := prob.goal.dedup.filter fun g => decide (g ∈ current_state.pos)
  (prob.goal.length : Int) - (satisfied_goals.length : Int)

/-- `generate_propositions(relation, obj1, obj2, all_obj2)`: positives for
every `(o1, o2)` pair, negatives for every `o1` and every member of
`all_obj2` outside `obj2`.  (Python iterates `set(all_obj2) - set(obj2)` in
hash order; the model iterates `all_obj2` in list order.  The scenario
inputs are duplicate-free and no claim depends on this iteration order.) -/
def generate_propositions (relation : String) (obj1 obj2 all_obj2 : List String) :
    List Proposition × List Proposition :=
  (obj1.flatMap fun o1 => obj2.map fun o2 => bin_rel relation o1 o2,
   obj1.flatMap fun o1 =>
     (all_obj2.filter fun x => decide (x ∉ obj2)).map fun o2 => bin_rel relation o1 o2)

/-- `append_propositions`: extend accumulated positive and negative lists
with the output of `generate_propositions`. -/
def append_propositions (relation : String) (obj1 obj2 all_obj2 : List String)
    (pos neg : List Proposition) : List Proposition × List Proposition :=
  let pn := generate_propositions relation obj1 obj2 all_obj2
  (pos ++ pn.1, neg ++ pn.2)

/-- `air_cargo_p1`: two cargos, two planes, two airports. -/
def air_cargo_p1 : AirCargoProblem :=
  let cargos := ["C1", "C2"]
  let planes := ["P1", "P2"]
  let airports := ["JFK", "SFO"]
  let s1 := append_propositions "At" ["C1"] ["SFO"] airports [] []
  let s2 := append_propositions "At" ["C2"] ["JFK"] airports s1.1 s1.2
  let s3 := append_propositions "At" ["P1"] ["SFO"] airports s2.1 s2.2
  let s4 := append_propositions "At" ["P2"] ["JFK"] airports s3.1 s3.2
  let s5 := append_propositions "In" cargos [] planes s4.1 s4.2
  { cargos := cargos, planes := planes, airports := airports,
    initial := ⟨s5.1, s5.2⟩,
    goal := [bin_rel "At" "C1" "JFK", bin_rel "At" "C2" "SFO"] }

/-- `air_cargo_p2`: three cargos, three planes, three airports. -/
def air_cargo_p2 : AirCargoProblem :=
  let cargos := ["C1", "C2", "C3"]
  let planes := ["P1", "P2", "P3"]
  let airports := ["JFK", "SFO", "ATL"]
  let s1 := append_propositions "At" ["C1"] ["SFO"] airports [] []
  let s2 := append_propositions "At" ["C2"] ["JFK"] airports s1.1 s1.2
  let s3 := append_propositions "At" ["C3"] ["ATL"] airports s2.1 s2.2
  let s4 := append_propositions "At" ["P1"] ["SFO"] airports s3.1 s3.2
  let s5 := append_propositions "At" ["P2"] ["JFK"] airports s4.1 s4.2
  let s6 := append_propositions "At" ["P3"] ["ATL"] airports s5.1 s5.2
  let s7 := append_propositions "In" cargos [] planes s6.1 s6.2
  { cargos := cargos, planes := planes, airports := airports,
    initial := ⟨s7.1, s7.2⟩,
    goal := [bin_rel "At" "C1" "JFK", bin_rel "At" "C2" "SFO", bin_rel "At" "C3" "SFO"] }

/-- `air_cargo_p3`: four cargos, two planes, four airports. -/
def air_cargo_p3 : AirCargoProblem :=
  let cargos := ["C1", "C2", "C3", "C4"]
  let planes := ["P1", "P2"]
  let airports := ["JFK", "SFO", "ATL", "ORD"]
  let s1 := append_propositions "At" ["C1"] ["SFO"] airports [] []
  let s2 := append_propositions "At" ["C2"] ["JFK"] airports s1.1 s1.2
  let s3 := append_propositions "At" ["C3"] ["ATL"] airports s2.1 s2.2
  let s4 := append_propositions "At" ["C4"] ["ORD"] airports s3.1 s3.2
  let s5 := append_propositions "At" ["P1"] ["SFO"] airports s4.1 s4.2
  let s6 := append_propositions "At" ["P2"] ["JFK"] airports s5.1 s5.2
  let s7 := append_propositions "In" cargos [] planes s6.1 s6.2
  { cargos := cargos, planes := planes, airports := airports,
    initial := ⟨s7.1, s7.2⟩,
    goal := [bin_rel "At" "C1" "JFK", bin_rel "At" "C2" "SFO",
             bin_rel "At" "C3" "JFK", bin_rel "At" "C4" "SFO"] }

/-- The transition function exactly as §4.5 of the spec words it: new
positive set `(old positive set − deleteList) ∪ addList`, new negative set
`(old negative set − addList) ∪ deleteList`, re-encoded against the state
map.  Used only to compare `AirCargoProblem.result` against the spec's
wording. -/
def spec_result (prob : AirCargoProblem) (state : List Bool) (action : Action) : List Bool :=
  let old_state := decode_state state prob.state_map
  encode_state
    { pos := (old_state.pos.filter fun p => decide (p ∉ action.effect_rem)) ++ action.effect_add,
      neg := (old_state.neg.filter fun p => decide (p ∉ action.effect_add)) ++ action.effect_rem }
    prob.state_map

/-- The applicability predicate of `AirCargoProblem.actions`: all positive
preconditions present in the decoded positive set, all negative
preconditions absent. -/
def applicable (prob : AirCargoProblem) (s : List Bool) (action : Action) : Bool :=
  let current_state := (decode_state s prob.state_map).pos
  action.precond_pos.all (fun p => decide (p ∈ current_state)) &&
  action.precond_neg.all (fun p => decide (p ∉ current_state))

/-- A one-cargo, one-plane, one-airport problem whose initial state already
has the cargo loaded in the plane while it is also at the airport.  Both
`Load(C1,P1,SFO)` preconditions hold there. -/
def probX : AirCargoProblem :=
  { cargos := ["C1"], planes := ["P1"], airports := ["SFO"],
    initial := ⟨[bin_rel "At" "C1" "SFO", bin_rel "At" "P1" "SFO", bin_rel "In" "C1" "P1"], []⟩,
    goal := [] }

/-- A problem whose goal list repeats the same proposition twice. -/
def probD : AirCargoProblem :=
  { cargos := ["C1"], planes := ["P1"], airports := ["SFO"],
    initial := ⟨[bin_rel "At" "C1" "SFO"], []⟩,
    goal := [bin_rel "At" "C1" "SFO", bin_rel "At" "C1" "SFO"] }

/-- `air_cargo_p1` with a goal proposition (`At(C3, SFO)`) that never
occurs in the state map. -/
def probBadGoal : AirCargoProblem :=
  { air_cargo_p1 with goal := [bin_rel "At" "C3" "SFO"] }

/-- An action whose add-list and delete-list overlap on `At(C1, SFO)`;
used to exercise the add-wins clause of the transition function. -/
def overlapAct : Action :=
  { name := ternary_rel "Overlap" "C1" "P1" "SFO",
    precond_pos := [], precond_neg := [],
    effect_add := [bin_rel "At" "C1" "SFO"],
    effect_rem := [bin_rel "At" "C1" "SFO"] }

/-! ### Helper lemmas -/

theorem mem_appendNew {y : Proposition} :
    ∀ (xs base : List Proposition), y ∈ appendNew base xs ↔ y ∈ base ∨ y ∈ xs := by
  intro xs
  induction xs with
  | nil => intro base; simp [appendNew]
  | cons x xs ih =>
    intro base
    have step : appendNew base (x :: xs) =
        appendNew (if x ∈ base then base else base ++ [x]) xs := rfl
    rw [step, ih]
    by_cases hx : x ∈ base
    · rw [if_pos hx]
      simp only [List.mem_cons]
      constructor
      · tauto
      · rintro (h | rfl | h)
        · exact Or.inl h
        · exact Or.inl hx
        · exact Or.inr h
    · rw [if_neg hx]
      simp only [List.mem_append, List.mem_cons, List.mem_singleton]
      tauto

theorem decode_state_pos_subset {x : Proposition} {s : List Bool} {m : List Proposition}
    (h : x ∈ (decode_state s m).pos) : x ∈ m := by
  simp only [decode_state, List.mem_map, List.mem_filter] at h
  obtain ⟨⟨b, q⟩, ⟨hmem, _⟩, rfl⟩ := h
  exact (List.of_mem_zip hmem).2

theorem decode_state_map (f : Proposition → Bool) (m : List Proposition) :
    decode_state (m.map f) m = ⟨m.filter f, m.filter fun p => !f p⟩ := by
  induction m with
  | nil => rfl
  | cons p m ih =>
    have h1 := congrArg FluentState.pos ih
    have h2 := congrArg FluentState.neg ih
    simp only [decode_state] at h1 h2
    cases hf : f p <;>
      simp [decode_state, List.filter_cons, hf, h1, h2]

theorem decode_encode_state (fs : FluentState) (m : List Proposition) :
    decode_state (encode_state fs m) m =
      ⟨m.filter fun p => decide (p ∈ fs.pos), m.filter fun p => !decide (p ∈ fs.pos)⟩ :=
  decode_state_map (fun p => decide (p ∈ fs.pos)) m

theorem mem_decode_encode_pos {q : Proposition} (fs : FluentState) (m : List Proposition) :
    q ∈ (decode_state (encode_state fs m) m).pos ↔ q ∈ m ∧ q ∈ fs.pos := by
  rw [decode_encode_state]
  simp [List.mem_filter]

theorem mem_result_fluent_pos {q : Proposition} (s : List Bool) (m : List Proposition)
    (act : Action) :
    q ∈ (result_fluent s m act).pos ↔
      q ∈ act.effect_add ∨ (q ∈ (decode_state s m).pos ∧ q ∉ act.effect_rem) := by
  simp only [result_fluent, mem_appendNew, List.mem_filter]
  constructor
  · rintro (⟨hp, hr⟩ | ha)
    · exact Or.inr ⟨hp, by simpa using hr⟩
    · exact Or.inl ha
  · rintro (ha | ⟨hp, hr⟩)
    · exact Or.inr ha
    · exact Or.inl ⟨hp, by simpa using hr⟩

theorem mem_result_fluent_neg {q : Proposition} (s : List Bool) (m : List Proposition)
    (act : Action) :
    q ∈ (result_fluent s m act).neg ↔
      q ∈ act.effect_rem ∨ (q ∈ (decode_state s m).neg ∧ q ∉ act.effect_add) := by
  simp only [result_fluent, mem_appendNew, List.mem_filter]
  constructor
  · rintro (⟨hp, hr⟩ | ha)
    · exact Or.inr ⟨hp, by simpa using hr⟩
    · exact Or.inl ha
  · rintro (ha | ⟨hp, hr⟩)
    · exact Or.inr ha
    · exact Or.inl ⟨hp, by simpa using hr⟩

theorem actions_eq_filter (prob : AirCargoProblem) (s : List Bool) :
    prob.actions s = prob.actions_list.filter (applicable prob s) := rfl

theorem result_eq_map (prob : AirCargoProblem) (s : List Bool) (act : Action) :
    prob.result s act = prob.state_map.map fun p =>
      decide (p ∈ act.effect_add ∨ (p ∈ (decode_state s prob.state_map).pos ∧
        p ∉ act.effect_rem)) := by
  unfold AirCargoProblem.result encode_state
  refine List.map_congr_left fun p _ => ?_
  exact decide_eq_decide.mpr (mem_result_fluent_pos s prob.state_map act)

theorem length_flatMap_const {α β : Type} (l : List α) (f : α → List β) (k : ℕ)
    (h : ∀ a ∈ l, (f a).length = k) : (l.flatMap f).length = l.length * k := by
  induction l with
  | nil => simp
  | cons a l ih =>
    simp only [List.flatMap_cons, List.length_append, List.length_cons]
    rw [h a (List.mem_cons_self a l), ih fun x hx => h x (List.mem_cons_of_mem a hx)]
    ring

theorem fly_inner_length (planes : List String) (fr : String) (l : List String) :
    (l.flatMap fun toA =>
        if fr ≠ toA then planes.map fun p => flyAction p fr toA else []).length =
      (l.countP fun toA => decide (fr ≠ toA)) * planes.length := by
  induction l with
  | nil => simp
  | cons a l ih =>
    simp only [List.flatMap_cons, List.length_append, List.countP_cons, ih]
    by_cases h : fr ≠ a
    · have hd : (if decide (fr ≠ a) = true then 1 else 0) = 1 := by simp [h]
      rw [if_pos h, hd]
      simp only [List.length_map]
      ring
    · have hd : (if decide (fr ≠ a) = true then 1 else 0) = 0 := by simp [h]
      rw [if_neg h, hd]
      simp

theorem countP_ne_of_nodup {fr : String} :
    ∀ l : List String, l.Nodup → fr ∈ l →
      (l.countP fun toA => decide (fr ≠ toA)) = l.length - 1 := by
  intro l
  induction l with
  | nil => intro _ h; simp at h
  | cons a l ih =>
    intro hnd hmem
    rcases List.mem_cons.mp hmem with rfl | hfr
    · have ha : fr ∉ l := (List.nodup_cons.mp hnd).1
      have hall : l.countP (fun toA => decide (fr ≠ toA)) = l.length :=
        List.countP_eq_length.mpr fun x hx => by
          simp only [decide_eq_true_eq]
          exact fun h => ha (h ▸ hx)
      have hd : (if decide (fr ≠ fr) = true then 1 else 0) = 0 := by simp
      rw [List.countP_cons, hall, hd, List.length_cons]
      omega
    · have hnd' := (List.nodup_cons.mp hnd).2
      have hne : fr ≠ a := fun h => (List.nodup_cons.mp hnd).1 (h ▸ hfr)
      have hlen : 1 ≤ l.length := List.length_pos.mpr (List.ne_nil_of_mem hfr)
      have hd : (if decide (fr ≠ a) = true then 1 else 0) = 1 := by simp [hne]
      rw [List.countP_cons, ih hnd' hfr, hd, List.length_cons]
      omega

theorem load_actions_length (cargos planes airports : List String) :
    (load_actions cargos planes airports).length =
      cargos.length * planes.length * airports.length := by
  unfold load_actions
  rw [length_flatMap_const _ _ (cargos.length * planes.length)]
  · ring
  · intro a _
    rw [length_flatMap_const _ _ planes.length]
    intro c _
    exact List.length_map _ _

theorem unload_actions_length (cargos planes airports : List String) :
    (unload_actions cargos planes airports).length =
      cargos.length * planes.length * airports.length := by
  unfold unload_actions
  rw [length_flatMap_const _ _ (cargos.length * planes.length)]
  · ring
  · intro a _
    rw [length_flatMap_const _ _ planes.length]
    intro c _
    exact List.length_map _ _

theorem fly_actions_length (planes airports : List String) (hA : airports.Nodup) :
    (fly_actions planes airports).length =
      planes.length * airports.length * (airports.length - 1) := by
  unfold fly_actions
  rw [length_flatMap_const _ _ (planes.length * (airports.length - 1))]
  · ring
  · intro fr hfr
    rw [fly_inner_length, countP_ne_of_nodup airports hA hfr]
    ring

theorem mem_load_actions {act : Action} (cargos planes airports : List String) :
    act ∈ load_actions cargos planes airports ↔
      ∃ c ∈ cargos, ∃ p ∈ planes, ∃ a ∈ airports, act = loadAction c p a := by
  simp only [load_actions, List.mem_flatMap, List.mem_map]
  constructor
  · rintro ⟨a, ha, c, hc, p, hp, rfl⟩
    exact ⟨c, hc, p, hp, a, ha, rfl⟩
  · rintro ⟨c, hc, p, hp, a, ha, rfl⟩
    exact ⟨a, ha, c, hc, p, hp, rfl⟩

theorem mem_unload_actions {act : Action} (cargos planes airports : List String) :
    act ∈ unload_actions cargos planes airports ↔
      ∃ c ∈ cargos, ∃ p ∈ planes, ∃ a ∈ airports, act = unloadAction c p a := by
  simp only [unload_actions, List.mem_flatMap, List.mem_map]
  constructor
  · rintro ⟨a, ha, c, hc, p, hp, rfl⟩
    exact ⟨c, hc, p, hp, a, ha, rfl⟩
  · rintro ⟨c, hc, p, hp, a, ha, rfl⟩
    exact ⟨a, ha, c, hc, p, hp, rfl⟩

theorem mem_fly_actions {act : Action} (planes airports : List String) :
    act ∈ fly_actions planes airports ↔
      ∃ p ∈ planes, ∃ fr ∈ airports, ∃ toA ∈ airports, fr ≠ toA ∧ act = flyAction p fr toA := by
  simp only [fly_actions, List.mem_flatMap]
  constructor
  · rintro ⟨fr, hfr, toA, htoA, hin⟩
    by_cases hne : fr ≠ toA
    · rw [if_pos hne] at hin
      obtain ⟨p, hp, rfl⟩ := List.mem_map.mp hin
      exact ⟨p, hp, fr, hfr, toA, htoA, hne, rfl⟩
    · rw [if_neg hne] at hin
      simp at hin
  · rintro ⟨p, hp, fr, hfr, toA, htoA, hne, rfl⟩
    refine ⟨fr, hfr, toA, htoA, ?_⟩
    rw [if_pos hne]
    exact List.mem_map.mpr ⟨p, hp, rfl⟩

/-! ### Claim theorems -/

/-- C1: for every encoded state `s` and every action, `result` equals the
re-encoding of the fluent state with positive set
`(P − deleteList) ∪ addList` and negative set `(N − addList) ∪ deleteList`
(`spec_result`); and a proposition in both the add-list and the
delete-list comes out true in the resulting encoded state (add wins). -/
theorem result_matches_spec_and_add_wins (prob : AirCargoProblem) (s : List Bool)
    (act : Action) (_hs : s.length = prob.state_map.length) :
    prob.result s act = spec_result prob s act ∧
      ∀ (i : ℕ) (p : Proposition), prob.state_map[i]? = some p →
        p ∈ act.effect_add → p ∈ act.effect_rem →
        (prob.result s act)[i]? = some true := by
  constructor
  · unfold AirCargoProblem.result spec_result encode_state
    refine List.map_congr_left fun p _ => ?_
    refine decide_eq_decide.mpr ?_
    rw [mem_result_fluent_pos]
    simp only [List.mem_append, List.mem_filter, decide_eq_true_eq]
    tauto
  · intro i p hp hadd hrem
    rw [result_eq_map, List.getElem?_map, hp]
    simp [hadd]

/-- C1 witness: `result` on the first scenario's initial state with an
action whose add-list and delete-list overlap on `At(C1, SFO)`: the spec
equation holds and bit 0 (`At(C1, SFO)`) of the result is true. -/
theorem result_matches_spec_and_add_wins_witness :
    air_cargo_p1.result air_cargo_p1.initial_state_TF overlapAct =
      spec_result air_cargo_p1 air_cargo_p1.initial_state_TF overlapAct ∧
    (air_cargo_p1.result air_cargo_p1.initial_state_TF overlapAct)[0]? = some true := by
  have h := result_matches_spec_and_add_wins air_cargo_p1 air_cargo_p1.initial_state_TF
    overlapAct (by decide)
  exact ⟨h.1, h.2 0 (bin_rel "At" "C1" "SFO") (by decide) (by decide) (by decide)⟩

/-- C2: `actions` returns exactly the grounded actions whose positive
preconditions all lie in the decoded positive set and whose negative
preconditions all lie outside it, and it returns them in the grounder's
insertion order: the applicable load actions, then the applicable unload
actions, then the applicable fly actions. -/
theorem actions_applicable_characterization (prob : AirCargoProblem) (s : List Bool)
    (_hs : s.length = prob.state_map.length) :
    prob.actions s =
      (load_actions prob.cargos prob.planes prob.airports).filter (applicable prob s) ++
      (unload_actions prob.cargos prob.planes prob.airports).filter (applicable prob s) ++
      (fly_actions prob.planes prob.airports).filter (applicable prob s) ∧
    ∀ act : Action, act ∈ prob.actions s ↔
      act ∈ prob.actions_list ∧
        (∀ p ∈ act.precond_pos, p ∈ (decode_state s prob.state_map).pos) ∧
        (∀ p ∈ act.precond_neg, p ∉ (decode_state s prob.state_map).pos) := by
  constructor
  · rw [actions_eq_filter]
    show (get_actions prob.cargos prob.planes prob.airports).filter (applicable prob s) = _
    unfold get_actions
    simp [List.filter_append]
  · intro act
    rw [actions_eq_filter, List.mem_filter]
    unfold applicable
    simp [List.all_eq_true, Bool.and_eq_true, decide_eq_true_eq]

/-- C2 witness: in the first scenario's initial state, `Load(C1, P1, SFO)`
is returned by `actions`. -/
theorem actions_applicable_characterization_witness :
    loadAction "C1" "P1" "SFO" ∈ air_cargo_p1.actions air_cargo_p1.initial_state_TF := by
  have h := actions_applicable_characterization air_cargo_p1 air_cargo_p1.initial_state_TF
    (by decide)
  exact (h.2 (loadAction "C1" "P1" "SFO")).mpr ⟨by decide, by decide, by decide⟩

/-- C3: `goal_test` is true exactly when every goal proposition is in the
decoded positive set of the state. -/
theorem goal_test_iff_goal_subset (prob : AirCargoProblem) (s : List Bool)
    (_hs : s.length = prob.state_map.length) :
    prob.goal_test s = true ↔ ∀ g ∈ prob.goal, g ∈ (decode_state s prob.state_map).pos := by
  unfold AirCargoProblem.goal_test
  simp [List.all_eq_true]

/-- C3 witness: the characterization instantiated at the first scenario's
initial state. -/
theorem goal_test_iff_goal_subset_witness :
    air_cargo_p1.goal_test air_cargo_p1.initial_state_TF = true ↔
      ∀ g ∈ air_cargo_p1.goal,
        g ∈ (decode_state air_cargo_p1.initial_state_TF air_cargo_p1.state_map).pos :=
  goal_test_iff_goal_subset air_cargo_p1 air_cargo_p1.initial_state_TF (by decide)

/-- C4: the grounder produces exactly `C·P·A` load actions, `C·P·A` unload
actions and `P·A·(A−1)` fly actions (airports pairwise distinct), in the
order load ++ unload ++ fly, and every ground action carries exactly the
schema of the claim: `Load(c,p,a)` and `Unload(c,p,a)` for each
(cargo, plane, airport) triple, `Fly(p,fr,to)` for each plane and each
ordered pair of distinct airports. -/
theorem get_actions_grounding (cargos planes airports : List String)
    (hA : airports.Nodup) :
    get_actions cargos planes airports =
      load_actions cargos planes airports ++ unload_actions cargos planes airports ++
        fly_actions planes airports ∧
    (load_actions cargos planes airports).length =
      cargos.length * planes.length * airports.length ∧
    (unload_actions cargos planes airports).length =
      cargos.length * planes.length * airports.length ∧
    (fly_actions planes airports).length =
      planes.length * airports.length * (airports.length - 1) ∧
    (∀ act : Action, act ∈ load_actions cargos planes airports ↔
      ∃ c ∈ cargos, ∃ p ∈ planes, ∃ a ∈ airports, act = loadAction c p a) ∧
    (∀ act : Action, act ∈ unload_actions cargos planes airports ↔
      ∃ c ∈ cargos, ∃ p ∈ planes, ∃ a ∈ airports, act = unloadAction c p a) ∧
    (∀ act : Action, act ∈ fly_actions planes airports ↔
      ∃ p ∈ planes, ∃ fr ∈ airports, ∃ toA ∈ airports, fr ≠ toA ∧
        act = flyAction p fr toA) ∧
    (∀ c p a : String,
      (loadAction c p a).precond_pos = [bin_rel "At" c a, bin_rel "At" p a] ∧
      (loadAction c p a).precond_neg = [] ∧
      (loadAction c p a).effect_add = [bin_rel "In" c p] ∧
      (loadAction c p a).effect_rem = [bin_rel "At" c a]) ∧
    (∀ c p a : String,
      (unloadAction c p a).precond_pos = [bin_rel "In" c p, bin_rel "At" p a] ∧
      (unloadAction c p a).precond_neg = [] ∧
      (unloadAction c p a).effect_add = [bin_rel "At" c a] ∧
      (unloadAction c p a).effect_rem = [bin_rel "In" c p]) ∧
    (∀ p fr toA : String,
      (flyAction p fr toA).precond_pos = [bin_rel "At" p fr] ∧
      (flyAction p fr toA).precond_neg = [] ∧
      (flyAction p fr toA).effect_add = [bin_rel "At" p toA] ∧
      (flyAction p fr toA).effect_rem = [bin_rel "At" p fr]) := by
  refine ⟨rfl, load_actions_length cargos planes airports,
    unload_actions_length cargos planes airports,
    fly_actions_length planes airports hA,
    fun act => mem_load_actions cargos planes airports,
    fun act => mem_unload_actions cargos planes airports,
    fun act => mem_fly_actions planes airports,
    fun c p a => ⟨rfl, rfl, rfl, rfl⟩,
    fun c p a => ⟨rfl, rfl, rfl, rfl⟩,
    fun p fr toA => ⟨rfl, rfl, rfl, rfl⟩⟩

/-- C4 witness: the grounding cardinalities for one cargo, one plane and
the two distinct airports of the first scenario. -/
theorem get_actions_grounding_witness :
    (load_actions ["C1"] ["P1"] ["JFK", "SFO"]).length = 2 ∧
    (unload_actions ["C1"] ["P1"] ["JFK", "SFO"]).length = 2 ∧
    (fly_actions ["P1"] ["JFK", "SFO"]).length = 2 := by
  have h := get_actions_grounding ["C1"] ["P1"] ["JFK", "SFO"] (by decide)
  exact ⟨h.2.1, h.2.2.1, h.2.2.2.1⟩

/-- C5 counterexample: in `probX` both preconditions of `Load(C1,P1,SFO)`
hold in the initial state, yet applying `Load(C1,P1,SFO)` and then
`Unload(C1,P1,SFO)` does not return the original encoded state, because
`In(C1,P1)` was already true and ends up false. -/
theorem load_unload_not_involutive :
    (bin_rel "At" "C1" "SFO" ∈ (decode_state probX.initial_state_TF probX.state_map).pos ∧
     bin_rel "At" "P1" "SFO" ∈ (decode_state probX.initial_state_TF probX.state_map).pos) ∧
    probX.result (probX.result probX.initial_state_TF (loadAction "C1" "P1" "SFO"))
      (unloadAction "C1" "P1" "SFO") ≠ probX.initial_state_TF := by
  decide

/-- C5 (amended): for every encoded state (the encoding of a fluent state
against the problem's state map) in which the preconditions of
`Load(c,p,a)` hold and in which `In(c,p)` is not already true, applying
`Load(c,p,a)` and then `Unload(c,p,a)` returns the original encoded
state. -/
theorem result_load_unload_cancel (prob : AirCargoProblem) (f : FluentState)
    (c pl ap : String)
    (hc : bin_rel "At" c ap ∈
      (decode_state (encode_state f prob.state_map) prob.state_map).pos)
    (_hp : bin_rel "At" pl ap ∈
      (decode_state (encode_state f prob.state_map) prob.state_map).pos)
    (hin : bin_rel "In" c pl ∉
      (decode_state (encode_state f prob.state_map) prob.state_map).pos) :
    prob.result (prob.result (encode_state f prob.state_map) (loadAction c pl ap))
      (unloadAction c pl ap) = encode_state f prob.state_map := by
  have hPmem : ∀ q : Proposition,
      q ∈ (decode_state (encode_state f prob.state_map) prob.state_map).pos ↔
        q ∈ prob.state_map ∧ q ∈ f.pos := fun q => mem_decode_encode_pos f prob.state_map
  have hs1 := result_eq_map prob (encode_state f prob.state_map) (loadAction c pl ap)
  rw [result_eq_map, hs1, decode_state_map]
  show _ = prob.state_map.map fun p => decide (p ∈ f.pos)
  refine List.map_congr_left fun p hpm => ?_
  refine decide_eq_decide.mpr ?_
  by_cases h1 : p = bin_rel "At" c ap
  · subst h1
    have hmem : bin_rel "At" c ap ∈ f.pos := ((hPmem _).mp hc).2
    simp [unloadAction, hmem]
  · by_cases h2 : p = bin_rel "In" c pl
    · subst h2
      have hne : bin_rel "In" c pl ≠ bin_rel "At" c ap := by simp [bin_rel]
      have hmem : bin_rel "In" c pl ∉ f.pos := fun hm => hin ((hPmem _).mpr ⟨hpm, hm⟩)
      simp [unloadAction, loadAction, hne, hmem]
    · simp only [unloadAction, loadAction, List.mem_filter, List.mem_singleton,
        decide_eq_true_eq, hPmem]
      simp [h1, h2, hpm]

/-- C5 witness: the amended cancellation at the first scenario's initial
state with `Load(C1,P1,SFO)` / `Unload(C1,P1,SFO)`. -/
theorem result_load_unload_cancel_witness :
    air_cargo_p1.result
      (air_cargo_p1.result (encode_state air_cargo_p1.initial air_cargo_p1.state_map)
        (loadAction "C1" "P1" "SFO"))
      (unloadAction "C1" "P1" "SFO") =
      encode_state air_cargo_p1.initial air_cargo_p1.state_map :=
  result_load_unload_cancel air_cargo_p1 air_cargo_p1.initial "C1" "P1" "SFO"
    (by decide) (by decide) (by decide)

/-- C6: in the first scenario, the six-step plan
Load(C1,P1,SFO), Fly(P1,SFO,JFK), Unload(C1,P1,JFK), Load(C2,P2,JFK),
Fly(P2,JFK,SFO), Unload(C2,P2,SFO) transforms the encoded initial state
into a state satisfying `goal_test`. -/
theorem air_cargo_p1_plan_reaches_goal :
    air_cargo_p1.goal_test
      (air_cargo_p1.result
        (air_cargo_p1.result
          (air_cargo_p1.result
            (air_cargo_p1.result
              (air_cargo_p1.result
                (air_cargo_p1.result air_cargo_p1.initial_state_TF
                  (loadAction "C1" "P1" "SFO"))
                (flyAction "P1" "SFO" "JFK"))
              (unloadAction "C1" "P1" "JFK"))
            (loadAction "C2" "P2" "JFK"))
          (flyAction "P2" "JFK" "SFO"))
        (unloadAction "C2" "P2" "SFO")) = true := by
  decide

/-- C7 counterexample: in `probD` the goal list repeats `At(C1, SFO)`,
which is true in the initial state.  A count in which duplicate goal
entries are not double-counted would give `|{At(C1,SFO)}| − |{At(C1,SFO)}| = 0`,
but `h_ignore_preconditions` subtracts the deduplicated intersection from
the raw goal-list length and returns `2 − 1 = 1`. -/
theorem h_ignore_preconditions_dup_counterexample :
    probD.h_ignore_preconditions probD.initial_state_TF = 1 ∧
    ((probD.goal.dedup.length : Int) -
      ((probD.goal.dedup.filter fun g =>
        decide (g ∈ (decode_state probD.initial_state_TF probD.state_map).pos)).length :
          Int)) = 0 ∧
    probD.h_ignore_preconditions probD.initial_state_TF ≠
      ((probD.goal.dedup.length : Int) -
        ((probD.goal.dedup.filter fun g =>
          decide (g ∈ (decode_state probD.initial_state_TF probD.state_map).pos)).length :
            Int)) := by
  decide

/-- C7 (amended): `h_ignore_preconditions` returns the length of the raw
goal list minus the size of the set intersection of the goal with the
decoded positive set (so only the intersection is deduplicated); the value
is always non-negative, and whenever the goal list is duplicate-free it
equals `|goal| − |goal ∩ P|`. -/
theorem h_ignore_preconditions_spec (prob : AirCargoProblem) (s : List Bool)
    (_hs : s.length = prob.state_map.length) :
    0 ≤ prob.h_ignore_preconditions s ∧
      (prob.goal.Nodup →
        prob.h_ignore_preconditions s = (prob.goal.length : Int) -
          ((prob.goal.filter fun g =>
            decide (g ∈ (decode_state s prob.state_map).pos)).length : Int)) := by
  constructor
  · have h1 : (prob.goal.dedup.filter fun g =>
        decide (g ∈ (decode_state s prob.state_map).pos)).length ≤ prob.goal.dedup.length :=
      List.length_filter_le _ _
    have h2 : prob.goal.dedup.length ≤ prob.goal.length :=
      (List.dedup_sublist prob.goal).length_le
    simp only [AirCargoProblem.h_ignore_preconditions]
    omega
  · intro hnd
    simp only [AirCargoProblem.h_ignore_preconditions]
    rw [List.dedup_eq_self.mpr hnd]

/-- C7 witness: at the first scenario's initial state no goal proposition
is yet satisfied, so the heuristic returns `2 − 0`, a non-negative value
matching the duplicate-free formula. -/
theorem h_ignore_preconditions_spec_witness :
    0 ≤ air_cargo_p1.h_ignore_preconditions air_cargo_p1.initial_state_TF ∧
      air_cargo_p1.h_ignore_preconditions air_cargo_p1.initial_state_TF =
        (air_cargo_p1.goal.length : Int) -
          ((air_cargo_p1.goal.filter fun g =>
            decide (g ∈ (decode_state air_cargo_p1.initial_state_TF
              air_cargo_p1.state_map).pos)).length : Int) := by
  have h := h_ignore_preconditions_spec air_cargo_p1 air_cargo_p1.initial_state_TF (by decide)
  exact ⟨h.1, h.2 (by decide)⟩

/-- C8: when some goal proposition does not occur in the state map
(initial positives followed by initial negatives), `goal_test` is false on
every encoded state.  The model's `goal_test` is a total function into
`Bool`, so no error can be raised. -/
theorem goal_test_false_of_goal_not_in_map (prob : AirCargoProblem) (s : List Bool)
    (_hs : s.length = prob.state_map.length) (g : Proposition) (hg : g ∈ prob.goal)
    (hmap : g ∉ prob.initial.pos ++ prob.initial.neg) :
    prob.goal_test s = false := by
  have hnot : g ∉ (decode_state s prob.state_map).pos := fun h =>
    hmap (decode_state_pos_subset h)
  rw [Bool.eq_false_iff]
  intro htrue
  unfold AirCargoProblem.goal_test at htrue
  simp only [List.all_eq_true, decide_eq_true_eq] at htrue
  exact hnot (htrue g hg)

/-- C8 witness: `probBadGoal`'s goal names `At(C3, SFO)`, which is not in
its state map, and `goal_test` of the initial state is false. -/
theorem goal_test_false_of_goal_not_in_map_witness :
    probBadGoal.goal_test probBadGoal.initial_state_TF = false :=
  goal_test_false_of_goal_not_in_map probBadGoal probBadGoal.initial_state_TF (by decide)
    (bin_rel "At" "C3" "SFO") (by decide) (by decide)

/-- C9: every ground action has a singleton add-list and a singleton
delete-list that do not intersect, and consequently `result` applied to a
state whose decoded positive and negative sets are disjoint builds a
fluent state whose positive and negative lists are again disjoint before
re-encoding. -/
theorem ground_action_effects_disjoint (cargos planes airports : List String)
    (act : Action) (hact : act ∈ get_actions cargos planes airports) :
    (act.effect_add.length = 1 ∧ act.effect_rem.length = 1 ∧
      ∀ x ∈ act.effect_add, x ∉ act.effect_rem) ∧
    ∀ (s : List Bool) (m : List Proposition),
      (∀ x ∈ (decode_state s m).pos, x ∉ (decode_state s m).neg) →
      ∀ x ∈ (result_fluent s m act).pos, x ∉ (result_fluent s m act).neg := by
  have hdisj : act.effect_add.length = 1 ∧ act.effect_rem.length = 1 ∧
      ∀ x ∈ act.effect_add, x ∉ act.effect_rem := by
    unfold get_actions at hact
    rcases List.mem_append.mp hact with hlu | hfly
    · rcases List.mem_append.mp hlu with hload | hunload
      · obtain ⟨c, _, p, _, a, _, rfl⟩ := (mem_load_actions cargos planes airports).mp hload
        refine ⟨rfl, rfl, ?_⟩
        simp [loadAction, bin_rel]
      · obtain ⟨c, _, p, _, a, _, rfl⟩ :=
          (mem_unload_actions cargos planes airports).mp hunload
        refine ⟨rfl, rfl, ?_⟩
        simp [unloadAction, bin_rel]
    · obtain ⟨p, _, fr, _, toA, _, hne, rfl⟩ := (mem_fly_actions planes airports).mp hfly
      refine ⟨rfl, rfl, ?_⟩
      simp only [flyAction, List.mem_singleton, forall_eq]
      simp [bin_rel]
      exact fun h => hne h.symm
  refine ⟨hdisj, fun s m hd x hxpos hxneg => ?_⟩
  rw [mem_result_fluent_pos] at hxpos
  rw [mem_result_fluent_neg] at hxneg
  rcases hxpos with hadd | ⟨hP, hnrem⟩
  · rcases hxneg with hrem | ⟨_, hnadd⟩
    · exact hdisj.2.2 x hadd hrem
    · exact hnadd hadd
  · rcases hxneg with hrem | ⟨hN, _⟩
    · exact hnrem hrem
    · exact hd x hP hN

/-- C9 witness: for the ground `Load(C1,P1,SFO)` action the effect lists
are disjoint singletons, and after applying `result_fluent` to a disjoint
one-airport state the added proposition `In(C1,P1)` is not in the new
negative list. -/
theorem ground_action_effects_disjoint_witness :
    (loadAction "C1" "P1" "SFO").effect_add.length = 1 ∧
    bin_rel "In" "C1" "P1" ∉
      (result_fluent [true, true]
        [bin_rel "At" "C1" "SFO", bin_rel "At" "P1" "SFO"]
        (loadAction "C1" "P1" "SFO")).neg := by
  have h := ground_action_effects_disjoint ["C1"] ["P1"] ["SFO"]
    (loadAction "C1" "P1" "SFO") (by decide)
  exact ⟨h.1.1, h.2 [true, true] [bin_rel "At" "C1" "SFO", bin_rel "At" "P1" "SFO"]
    (by decide) (bin_rel "In" "C1" "P1") (by decide)⟩

/-- C10: for each scenario constructor the initial positive and negative
lists are duplicate-free and disjoint, so the state map
(`pos ++ neg`) lists each proposition exactly once (and hence assigns it a
unique index). -/
theorem scenario_state_maps_nodup :
    (air_cargo_p1.initial.pos.Nodup ∧ air_cargo_p1.initial.neg.Nodup ∧
      (∀ x ∈ air_cargo_p1.initial.pos, x ∉ air_cargo_p1.initial.neg) ∧
      air_cargo_p1.state_map.Nodup) ∧
    (air_cargo_p2.initial.pos.Nodup ∧ air_cargo_p2.initial.neg.Nodup ∧
      (∀ x ∈ air_cargo_p2.initial.pos, x ∉ air_cargo_p2.initial.neg) ∧
      air_cargo_p2.state_map.Nodup) ∧
    (air_cargo_p3.initial.pos.Nodup ∧ air_cargo_p3.initial.neg.Nodup ∧
      (∀ x ∈ air_cargo_p3.initial.pos, x ∉ air_cargo_p3.initial.neg) ∧
      air_cargo_p3.state_map.Nodup) := by
  decide

end AirCargo
